import Mathlib

/-!
Verification of the process launch orchestrator in `src/core/game_launcher.py`.

The `GameLauncher` class is embedded shallowly:
  * `process_map` (a Python dict mapping login strings to pids) becomes an
    insertion-ordered association list `ProcessMap`; `lookupMap`, `setMap`
    and `delMap` mirror `dict.get`, item assignment and `del` (assignment
    to an existing key keeps its position, a new key is appended, exactly
    as CPython dicts behave).
  * the operating system is an explicit environment: `OsView` records, for
    each pid, whether `psutil.Process(pid)` succeeds and what
    `is_running()` returns; `TermEnv` records the outcome of each psutil
    call made by `terminate_account`; `LaunchEnv` records the outcome of
    path validation, the two snapshots and the spawn.
  * fallible calls are modelled by explicit result enumerations
    (`OpResult`, `WaitResult`) matching the exception branches of the
    source.
-/

namespace PwLauncher

/-- OS process identifier (a nonnegative int in psutil). -/
abbrev Pid := Nat

/-- Account login, the key of `process_map`. -/
abbrev Login := String

/-- The tracker `self.process_map`, as an insertion-ordered association list. -/
abbrev ProcessMap := List (Login × Pid)

/-- Python `self.process_map.get(login)`: the value at a key, or `none`. -/
def lookupMap (m : ProcessMap) (k : Login) : Option Pid :=
  match m with
  | [] => none
  | (k', p) :: rest => if k' = k then some p else lookupMap rest k

/-- Python `self.process_map[login] = pid`: replace in place, or append. -/
def setMap (m : ProcessMap) (k : Login) (p : Pid) : ProcessMap :=
  match m with
  | [] => [(k, p)]
  | (k', p') :: rest => if k' = k then (k, p) :: rest else (k', p') :: setMap rest k p

/-- Python `del self.process_map[login]` (identity when the key is absent). -/
def delMap (m : ProcessMap) (k : Login) : ProcessMap :=
  match m with
  | [] => []
  | (k', p') :: rest => if k' = k then rest else (k', p') :: delMap rest k

/-- Boolean list membership used by the embedding (Python `in`). -/
def memB {α : Type} [DecidableEq α] (a : α) : List α → Bool
  | [] => false
  | b :: bs => if b = a then true else memB a bs

/-- A `ProcessMap` is dict-like when its keys are distinct (Python dicts
guarantee this). -/
def KeysNodup (m : ProcessMap) : Prop := (m.map Prod.fst).Nodup

/-- View of the OS process table used by the query operations:
`procExists pid` is whether `psutil.Process(pid)` succeeds (rather than
raising `NoSuchProcess`), and `isRunning pid` is what
`process.is_running()` returns for an existing process. -/
structure OsView where
  procExists : Pid → Bool
  isRunning : Pid → Bool

/-- A tracked pid counts as alive when `psutil.Process(pid)` succeeds and
`is_running()` is true; both failure ways are treated as dead by the
source (`if not process.is_running()` and `except psutil.NoSuchProcess`). -/
def pidAlive (os : OsView) (p : Pid) : Bool :=
  os.procExists p && os.isRunning p

/-- Embeds `GameLauncher.cleanup_dead_processes` (lines 97–110): first
collect the logins of dead entries into `dead_logins`, then delete each
collected login from the map. -/
def cleanup_dead_processes (os : OsView) (m : ProcessMap) : ProcessMap :=
  let dead_logins := (m.filter (fun e => !pidAlive os e.2)).map Prod.fst
  dead_logins.foldl delMap m

/-- Embeds `GameLauncher.is_account_running` (lines 72–84); returns the
boolean result and the map after the call. The guard `if not pid` is
Python truthiness: it fires when the key is absent and also when the
tracked pid is the falsy int 0. On `NoSuchProcess` the entry is deleted
before returning `False`. -/
def is_account_running (os : OsView) (m : ProcessMap) (login : Login) :
    Bool × ProcessMap :=
  match lookupMap m login with
  | none => (false, m)
  | some pid =>
    if pid = 0 then (false, m)
    else if os.procExists pid then (os.isRunning pid, m)
    else (false, delMap m login)

/-- Outcome of one psutil call in `terminate_account`: it returned
normally, raised `psutil.NoSuchProcess`, or raised some other exception
(for example `AccessDenied`). -/
inductive OpResult where
  | ok
  | noSuch
  | err
deriving DecidableEq

/-- Outcome of `process.wait(timeout=5)`: it returned (the process
exited), raised `psutil.TimeoutExpired`, or raised some other
exception. -/
inductive WaitResult where
  | returned
  | timedOut
  | err
deriving DecidableEq

/-- Environment of one `terminate_account` call: the outcome of each
psutil call it may perform, plus whether the target process is still
running once the call has finished (`aliveAfter`, which the source never
inspects). -/
structure TermEnv where
  procCtor : OpResult
  termRes : OpResult
  waitRes : WaitResult
  killRes : OpResult
  aliveAfter : Bool
deriving DecidableEq

/-- Consistency of a `TermEnv` with OS semantics: if any psutil call
reported the process gone (`NoSuchProcess`) or the graceful wait
returned, the process is not running afterwards. -/
def TermEnv.consistent (env : TermEnv) : Prop :=
  (env.procCtor = OpResult.noSuch → env.aliveAfter = false) ∧
  (env.termRes = OpResult.noSuch → env.aliveAfter = false) ∧
  (env.killRes = OpResult.noSuch → env.aliveAfter = false) ∧
  (env.waitRes = WaitResult.returned → env.aliveAfter = false)

instance (env : TermEnv) : Decidable env.consistent := by
  unfold TermEnv.consistent
  infer_instance

/-- Process-level operation performed by `terminate_account`. -/
inductive ProcOp where
  | terminate (pid : Pid)
  | kill (pid : Pid)
deriving DecidableEq

/-- Embeds `GameLauncher.terminate_account` (lines 42–70): look the login
up; the falsy guard `if not pid` returns `False` for an absent key and
for a tracked pid 0; otherwise build `psutil.Process(pid)`, call
`terminate()`, `wait(timeout=5)`, and on timeout `kill()`.
`NoSuchProcess` anywhere lands in the handler that deletes the entry and
returns `True`; any other exception lands in the generic handler that
returns `False` without touching the map. The result is
(returned boolean, map after the call, process operations performed). -/
def terminate_account (env : TermEnv) (m : ProcessMap) (login : Login) :
    Bool × ProcessMap × List ProcOp :=
  match lookupMap m login with
  | none => (false, m, [])
  | some pid =>
    if pid = 0 then (false, m, [])
    else
      match env.procCtor with
      | OpResult.noSuch => (true, delMap m login, [])
      | OpResult.err => (false, m, [])
      | OpResult.ok =>
        match env.termRes with
        | OpResult.noSuch => (true, delMap m login, [ProcOp.terminate pid])
        | OpResult.err => (false, m, [ProcOp.terminate pid])
        | OpResult.ok =>
          match env.waitRes with
          | WaitResult.returned => (true, delMap m login, [ProcOp.terminate pid])
          | WaitResult.err => (false, m, [ProcOp.terminate pid])
          | WaitResult.timedOut =>
            match env.killRes with
            | OpResult.err => (false, m, [ProcOp.terminate pid, ProcOp.kill pid])
            | _ => (true, delMap m login, [ProcOp.terminate pid, ProcOp.kill pid])

/-- Success scenarios of `terminate_account` on a tracked, nonzero pid,
written as a flat disjunction over the error taxonomy: the process was
already gone when the handle was built, or `terminate()` found it gone,
or the graceful wait saw it exit, or the wait timed out and the forced
`kill()` call did not raise an unexpected error. -/
def termSucceeds (env : TermEnv) : Prop :=
  env.procCtor = OpResult.noSuch ∨
  (env.procCtor = OpResult.ok ∧ env.termRes = OpResult.noSuch) ∨
  (env.procCtor = OpResult.ok ∧ env.termRes = OpResult.ok ∧
    env.waitRes = WaitResult.returned) ∨
  (env.procCtor = OpResult.ok ∧ env.termRes = OpResult.ok ∧
    env.waitRes = WaitResult.timedOut ∧ env.killRes ≠ OpResult.err)

instance (env : TermEnv) : Decidable (termSucceeds env) := by
  unfold termSucceeds
  infer_instance

/-- Environment of one `_launch_account_sync` call: whether
`os.path.exists(batch_file)` holds, the pids the before snapshot returns,
whether `subprocess.Popen` succeeds (rather than raising), and the pids
the after snapshot returns. Snapshots are lists of the pids that
`_get_running_processes` collects (name-matching happens at OS level). -/
structure LaunchEnv where
  pathExists : Bool
  beforePids : List Pid
  spawnOk : Bool
  afterPids : List Pid
deriving DecidableEq

/-- Observable side effects of one `_launch_account_sync` call: how many
snapshots were taken and whether `subprocess.Popen` was invoked. -/
structure LaunchTrace where
  snapshots : Nat
  spawnAttempted : Bool
deriving DecidableEq

/-- Embeds `GameLauncher._launch_account_sync` (lines 144–179): a missing
batch file returns `None` before any snapshot or spawn; then the before
snapshot is taken and `Popen` is called — an exception returns `None`
with the map untouched; otherwise the after snapshot is taken,
`new_pids = after − before` is computed, an empty difference returns
`None`, and otherwise the first new pid is recorded under the login and
returned. The result is (returned pid-or-none, map after the call,
side-effect trace). -/
def launch_account_sync (env : LaunchEnv) (m : ProcessMap) (login : Login) :
    Option Pid × ProcessMap × LaunchTrace :=
  if !env.pathExists then (none, m, ⟨0, false⟩)
  else if !env.spawnOk then (none, m, ⟨1, true⟩)
  else
    match env.afterPids.filter (fun p => !memB p env.beforePids) with
    | [] => (none, m, ⟨2, true⟩)
    | pid :: _ => (some pid, setMap m login pid, ⟨2, true⟩)

/-- Embeds the tracker record step of `_launch_account_sync` (lines
168–170): under `launch_lock`, the plain dict assignment
`self.process_map[login] = pid`; those lines perform no process-level
operation, so the operation list is empty. -/
def record (m : ProcessMap) (login : Login) (pid : Pid) :
    ProcessMap × List ProcOp :=
  (setMap m login pid, [])

/-- One request placed on the launch queue by `queue_launch` (lines
181–183): the login, the world in which its launch will execute, and
whether a completion callback was supplied. -/
structure QueuedRequest where
  login : Login
  env : LaunchEnv
  hasCallback : Bool
deriving DecidableEq

/-- Events observable in the worker loop `_launch_worker` (lines
118–142): a launch execution starts, a completion callback is invoked
with a login and its pid-or-none, or the worker sleeps between items. -/
inductive WorkerEvent where
  | exec (login : Login)
  | callbackEv (login : Login) (pid : Option Pid)
  | sleepEv (secs : Nat)
deriving DecidableEq

/-- Embeds `GameLauncher._launch_worker` (lines 118–142) draining a queue
holding the given requests in enqueue order: dequeue one request, run
`_launch_account_sync` on it, invoke the callback (when one was supplied)
with the login and the resulting pid-or-none, then sleep the configured
delay only when the queue is not yet empty. Returns the final map and the
ordered event trace of the single worker thread. -/
def launch_worker (delay : Nat) (m : ProcessMap) :
    List QueuedRequest → ProcessMap × List WorkerEvent
  | [] => (m, [])
  | r :: rest =>
    let res := launch_account_sync r.env m r.login
    let tail := launch_worker delay res.2.1 rest
    (tail.1,
      WorkerEvent.exec r.login ::
        ((if r.hasCallback then [WorkerEvent.callbackEv r.login res.1] else []) ++
          (if rest.isEmpty then [] else [WorkerEvent.sleepEv delay]) ++ tail.2))

/-- Projection selecting the launch-execution events of a trace. -/
def execOf : WorkerEvent → Option Login
  | WorkerEvent.exec l => some l
  | _ => none

/-- Projection selecting the callback invocations of a trace. -/
def cbOf : WorkerEvent → Option (Login × Option Pid)
  | WorkerEvent.callbackEv l p => some (l, p)
  | _ => none

/-- Modelled from the spec (refinement reference): the completion
callbacks the queued path must deliver — for each request with a
callback, in enqueue order, its login paired with the pid-or-absent that
its own launch produced in the state left by the previous launches. -/
def expectedCallbacks (m : ProcessMap) :
    List QueuedRequest → List (Login × Option Pid)
  | [] => []
  | r :: rest =>
    let res := launch_account_sync r.env m r.login
    (if r.hasCallback then [(r.login, res.1)] else []) ++
      expectedCallbacks res.2.1 rest

theorem memB_iff {α : Type} [DecidableEq α] (a : α) (l : List α) :
    memB a l = true ↔ a ∈ l := by
  induction l with
  | nil => simp [memB]
  | cons b bs ih =>
    by_cases hb : b = a
    · subst hb
      simp [memB]
    · have hb' : ¬a = b := fun hc => hb hc.symm
      simp [memB, hb, ih, hb']

theorem lookupMap_setMap_self (m : ProcessMap) (k : Login) (p : Pid) :
    lookupMap (setMap m k p) k = some p := by
  induction m with
  | nil => simp [setMap, lookupMap]
  | cons e rest ih =>
    by_cases h : e.1 = k
    · simp [setMap, lookupMap, h]
    · simp [setMap, lookupMap, h, ih]

theorem lookupMap_setMap_ne (m : ProcessMap) (k k' : Login) (p : Pid)
    (h : k' ≠ k) : lookupMap (setMap m k p) k' = lookupMap m k' := by
  have hk : ¬k = k' := fun hc => h hc.symm
  induction m with
  | nil => simp [setMap, lookupMap, hk]
  | cons e rest ih =>
    by_cases h₀ : e.1 = k
    · by_cases h₁ : e.1 = k'
      · exact absurd (h₀.symm.trans h₁) hk
      · simp [setMap, lookupMap, h₀, h₁, hk]
    · by_cases h₁ : e.1 = k'
      · simp [setMap, lookupMap, h₀, h₁, h, hk]
      · simp [setMap, lookupMap, h₀, h₁, ih]

theorem delMap_eq_filter (m : ProcessMap) (k : Login) (hnd : KeysNodup m) :
    delMap m k = m.filter (fun e => !decide (e.1 = k)) := by
  induction m with
  | nil => simp [delMap]
  | cons e rest ih =>
    simp only [KeysNodup, List.map_cons, List.nodup_cons] at hnd
    by_cases h : e.1 = k
    · have hrest : rest.filter (fun e => !decide (e.1 = k)) = rest := by
        apply List.filter_eq_self.mpr
        intro e' he'
        simp only [Bool.not_eq_true', decide_eq_false_iff_not]
        intro hc
        exact hnd.1 (h ▸ hc ▸ List.mem_map_of_mem Prod.fst he')
      simp [delMap, h, hrest]
    · simp [delMap, h, ih hnd.2]

theorem keysNodup_filter (m : ProcessMap) (f : Login × Pid → Bool)
    (hnd : KeysNodup m) : KeysNodup (m.filter f) :=
  List.Nodup.sublist ((m.filter_sublist).map Prod.fst) hnd

theorem keysNodup_delMap (m : ProcessMap) (k : Login) (hnd : KeysNodup m) :
    KeysNodup (delMap m k) := by
  rw [delMap_eq_filter m k hnd]
  exact keysNodup_filter m _ hnd

theorem keys_inj (m : ProcessMap) (hnd : KeysNodup m) {e e' : Login × Pid}
    (he : e ∈ m) (he' : e' ∈ m) (hk : e.1 = e'.1) : e = e' := by
  induction m with
  | nil => cases he
  | cons a rest ih =>
    simp only [KeysNodup, List.map_cons, List.nodup_cons] at hnd
    rcases List.mem_cons.mp he with h1 | h1
    · rcases List.mem_cons.mp he' with h2 | h2
      · rw [h1, h2]
      · exfalso
        have hm : e'.1 ∈ List.map Prod.fst rest :=
          List.mem_map_of_mem Prod.fst h2
        rw [← hk, h1] at hm
        exact hnd.1 hm
    · rcases List.mem_cons.mp he' with h2 | h2
      · exfalso
        have hm : e.1 ∈ List.map Prod.fst rest :=
          List.mem_map_of_mem Prod.fst h1
        rw [hk, h2] at hm
        exact hnd.1 hm
      · exact ih hnd.2 h1 h2

theorem foldl_delMap_eq_filter (ks : List Login) :
    ∀ m : ProcessMap, KeysNodup m →
      ks.foldl delMap m = m.filter (fun e => !memB e.1 ks) := by
  induction ks with
  | nil =>
    intro m _
    simp [memB, List.filter_eq_self]
  | cons k ks ih =>
    intro m hnd
    rw [List.foldl_cons, ih (delMap m k) (keysNodup_delMap m k hnd),
      delMap_eq_filter m k hnd, List.filter_filter]
    apply List.filter_congr
    intro e _
    by_cases hek : k = e.1
    · simp [memB, hek]
    · have hek' : ¬e.1 = k := fun hc => hek hc.symm
      simp [memB, hek, hek']

theorem cleanup_eq_filter (os : OsView) (m : ProcessMap)
    (hnd : KeysNodup m) :
    cleanup_dead_processes os m = m.filter (fun e => pidAlive os e.2) := by
  unfold cleanup_dead_processes
  rw [foldl_delMap_eq_filter _ m hnd]
  apply List.filter_congr
  intro e he
  by_cases ha : pidAlive os e.2
  · have hnotin :
        e.1 ∉ (m.filter (fun x => !pidAlive os x.2)).map Prod.fst := by
      intro hmem
      obtain ⟨e', he', heq⟩ := List.mem_map.mp hmem
      have he'm := List.mem_of_mem_filter he'
      have hee : e' = e := keys_inj m hnd he'm he heq
      have hdead := List.of_mem_filter he'
      rw [hee] at hdead
      simp [ha] at hdead
    have hmb : memB e.1 ((m.filter (fun x => !pidAlive os x.2)).map Prod.fst)
        = false := by
      rw [← Bool.not_eq_true]
      intro hc
      exact hnotin ((memB_iff _ _).mp hc)
    simp [hmb, ha]
  · have hin : e.1 ∈ (m.filter (fun x => !pidAlive os x.2)).map Prod.fst :=
      List.mem_map_of_mem Prod.fst
        (List.mem_filter.mpr ⟨he, by simp [ha]⟩)
    have hmb : memB e.1 ((m.filter (fun x => !pidAlive os x.2)).map Prod.fst)
        = true := (memB_iff _ _).mpr hin
    simp [hmb, ha]

theorem cleanup_idempotent (os : OsView) (m : ProcessMap)
    (hnd : KeysNodup m) :
    cleanup_dead_processes os (cleanup_dead_processes os m) =
      cleanup_dead_processes os m := by
  rw [cleanup_eq_filter os m hnd,
    cleanup_eq_filter os _ (keysNodup_filter m _ hnd)]
  apply List.filter_eq_self.mpr
  intro e he
  exact (List.mem_filter.mp he).2

theorem launch_result_cases (env : LaunchEnv) (m : ProcessMap)
    (login : Login) :
    (∃ pid rest,
      env.afterPids.filter (fun p => !memB p env.beforePids) = pid :: rest ∧
      launch_account_sync env m login =
        (some pid, setMap m login pid, ⟨2, true⟩)) ∨
    ((launch_account_sync env m login).1 = none ∧
      (launch_account_sync env m login).2.1 = m) := by
  unfold launch_account_sync
  by_cases hp : env.pathExists
  · by_cases hs : env.spawnOk
    · cases hfl : env.afterPids.filter (fun p => !memB p env.beforePids) with
      | nil =>
        right
        simp [hp, hs, hfl]
      | cons q qs =>
        left
        exact ⟨q, qs, rfl, by simp [hp, hs]⟩
    · right
      simp [hp, hs]
  · right
    simp [hp]

/-- Claim C1: draining a queue of N requests performs exactly N launch
executions, strictly in enqueue (FIFO) order in the single sequential
worker, and invokes each supplied completion callback with its login and
the pid-or-absent its own launch produced. -/
theorem queued_launches_fifo_serialized (delay : Nat) (m : ProcessMap)
    (reqs : List QueuedRequest) :
    (launch_worker delay m reqs).2.filterMap execOf =
      reqs.map QueuedRequest.login ∧
    (launch_worker delay m reqs).2.filterMap cbOf =
      expectedCallbacks m reqs ∧
    ((launch_worker delay m reqs).2.filterMap execOf).length = reqs.length := by
  induction reqs generalizing m with
  | nil => simp [launch_worker, expectedCallbacks]
  | cons r rest ih =>
    obtain ⟨ih1, ih2, ih3⟩ := ih (launch_account_sync r.env m r.login).2.1
    by_cases hcb : r.hasCallback <;> by_cases hre : rest.isEmpty <;>
      simp [launch_worker, expectedCallbacks, execOf, cbOf, hcb, hre,
        ih1, ih2]

/-- Claim C2: recording `k↦p` in the tracker and looking `k` up yields
`p`; recording `k↦p1` then `k↦p2` makes lookup yield `p2` (last write
wins); the record step performs no process-level operation (so `p1` is
not terminated); and no other key's mapping changes. -/
theorem tracker_record_lookup_semantics (m : ProcessMap) (k k' : Login)
    (p p1 p2 : Pid) (hk : k' ≠ k) :
    lookupMap (record m k p).1 k = some p ∧
    lookupMap (record (record m k p1).1 k p2).1 k = some p2 ∧
    (record m k p).2 = [] ∧
    (record (record m k p1).1 k p2).2 = [] ∧
    lookupMap (record m k p).1 k' = lookupMap m k' :=
  ⟨lookupMap_setMap_self m k p, lookupMap_setMap_self _ k p2, rfl, rfl,
    lookupMap_setMap_ne m k k' p hk⟩

/-- Witness for claim C2 at a concrete map and keys. -/
theorem tracker_record_lookup_semantics_witness :
    lookupMap (record [("b", 7)] "a" 5).1 "a" = some 5 ∧
    lookupMap (record (record [("b", 7)] "a" 3).1 "a" 5).1 "a" = some 5 ∧
    (record [("b", 7)] "a" 5).2 = [] ∧
    (record (record [("b", 7)] "a" 3).1 "a" 5).2 = [] ∧
    lookupMap (record [("b", 7)] "a" 5).1 "b" = lookupMap [("b", 7)] "b" :=
  tracker_record_lookup_semantics [("b", 7)] "a" "b" 5 3 5 (by decide)

/-- Claim C3: on a dict-like map, `cleanup_dead_processes` keeps exactly
the entries whose pid is alive (removing precisely the dead ones, leaving
the alive ones in place), and an immediately repeated call removes
nothing further. -/
theorem cleanup_removes_exactly_dead (os : OsView) (m : ProcessMap)
    (hnd : KeysNodup m) :
    cleanup_dead_processes os m = m.filter (fun e => pidAlive os e.2) ∧
    cleanup_dead_processes os (cleanup_dead_processes os m) =
      cleanup_dead_processes os m :=
  ⟨cleanup_eq_filter os m hnd, cleanup_idempotent os m hnd⟩

/-- Witness for claim C3: two tracked entries, pid 1 alive and pid 2
dead. -/
theorem cleanup_removes_exactly_dead_witness :
    cleanup_dead_processes ⟨fun q => decide (q = 1), fun _ => true⟩
        [("a", 1), ("b", 2)] =
      List.filter
        (fun e => pidAlive ⟨fun q => decide (q = 1), fun _ => true⟩ e.2)
        [("a", 1), ("b", 2)] ∧
    cleanup_dead_processes ⟨fun q => decide (q = 1), fun _ => true⟩
        (cleanup_dead_processes ⟨fun q => decide (q = 1), fun _ => true⟩
          [("a", 1), ("b", 2)]) =
      cleanup_dead_processes ⟨fun q => decide (q = 1), fun _ => true⟩
        [("a", 1), ("b", 2)] :=
  cleanup_removes_exactly_dead ⟨fun q => decide (q = 1), fun _ => true⟩
    [("a", 1), ("b", 2)] (by unfold KeysNodup; decide)

/-- Counterexample for claim C4: a missing target, an OS spawn refusal
and an undetected process all produce the identical caller-visible
outcome (absent pid, unchanged tracker), so the three failure modes are
not distinguishable by the caller. -/
theorem launch_failure_modes_indistinguishable :
    ((launch_account_sync ⟨false, [7], true, [7]⟩ [] "a").1,
        (launch_account_sync ⟨false, [7], true, [7]⟩ [] "a").2.1) =
      ((launch_account_sync ⟨true, [7], false, [7]⟩ [] "a").1,
        (launch_account_sync ⟨true, [7], false, [7]⟩ [] "a").2.1) ∧
    ((launch_account_sync ⟨true, [7], false, [7]⟩ [] "a").1,
        (launch_account_sync ⟨true, [7], false, [7]⟩ [] "a").2.1) =
      ((launch_account_sync ⟨true, [7], true, [7]⟩ [] "a").1,
        (launch_account_sync ⟨true, [7], true, [7]⟩ [] "a").2.1) := by
  decide

/-- Claim C4 as amended: every launch failure mode — missing target,
spawn refusal, or no new process detected — is reported to the caller by
the one same signal, an absent pid with the tracker unchanged; failure is
distinguishable from success but the failure modes are not
distinguishable from one another. -/
theorem launch_failures_same_signal (env : LaunchEnv) (m : ProcessMap)
    (login : Login)
    (h : env.pathExists = false ∨ env.spawnOk = false ∨
      env.afterPids.filter (fun p => !memB p env.beforePids) = []) :
    (launch_account_sync env m login).1 = none ∧
    (launch_account_sync env m login).2.1 = m := by
  unfold launch_account_sync
  rcases h with h | h | h
  · simp [h]
  · by_cases hp : env.pathExists <;> simp [h, hp]
  · by_cases hp : env.pathExists <;> by_cases hs : env.spawnOk <;>
      simp [h, hp, hs]

/-- Witness for the amended claim C4 at a concrete failing launch. -/
theorem launch_failures_same_signal_witness :
    (launch_account_sync ⟨false, [], true, []⟩ [("b", 3)] "a").1 = none ∧
    (launch_account_sync ⟨false, [], true, []⟩ [("b", 3)] "a").2.1 =
      [("b", 3)] :=
  launch_failures_same_signal ⟨false, [], true, []⟩ [("b", 3)] "a"
    (Or.inl rfl)

/-- Counterexample for claim C5: in a consistent environment where the
graceful wait times out, the forced `kill()` call returns without raising
but the process survives it, `terminate_account` still reports success —
the surviving process is not surfaced as a failure. -/
theorem terminate_kill_survivor_reported_success :
    TermEnv.consistent
      ⟨OpResult.ok, OpResult.ok, WaitResult.timedOut, OpResult.ok, true⟩ ∧
    (⟨OpResult.ok, OpResult.ok, WaitResult.timedOut, OpResult.ok, true⟩ :
      TermEnv).aliveAfter = true ∧
    (terminate_account
      ⟨OpResult.ok, OpResult.ok, WaitResult.timedOut, OpResult.ok, true⟩
      [("a", 5)] "a").1 = true := by
  decide

/-- Claim C5 as amended: terminating a tracked key with nonzero pid
returns success exactly when no psutil call in the sequence raises an
unexpected error — the process being already gone at any step counts as
success, the wait returning counts as success, and a timed-out wait
followed by a `kill()` call that does not raise counts as success even
though no liveness check is made afterwards; on success the entry is
removed from the tracker. -/
theorem terminate_success_iff_no_unexpected_error (env : TermEnv)
    (m : ProcessMap) (login : Login) (pid : Pid)
    (h : lookupMap m login = some pid) (hp : pid ≠ 0) :
    ((terminate_account env m login).1 = true ↔ termSucceeds env) ∧
    ((terminate_account env m login).1 = true →
      (terminate_account env m login).2.1 = delMap m login) := by
  obtain ⟨pc, tr, wr, kr, al⟩ := env
  unfold terminate_account termSucceeds
  rw [h]
  cases pc <;> cases tr <;> cases wr <;> cases kr <;> simp [hp]

/-- Witness for the amended claim C5 at a concrete graceful
termination. -/
theorem terminate_success_iff_no_unexpected_error_witness :
    ((terminate_account
        ⟨OpResult.ok, OpResult.ok, WaitResult.returned, OpResult.ok, false⟩
        [("a", 5)] "a").1 = true ↔
      termSucceeds
        ⟨OpResult.ok, OpResult.ok, WaitResult.returned, OpResult.ok,
          false⟩) ∧
    ((terminate_account
        ⟨OpResult.ok, OpResult.ok, WaitResult.returned, OpResult.ok, false⟩
        [("a", 5)] "a").1 = true →
      (terminate_account
        ⟨OpResult.ok, OpResult.ok, WaitResult.returned, OpResult.ok, false⟩
        [("a", 5)] "a").2.1 = delMap [("a", 5)] "a") :=
  terminate_success_iff_no_unexpected_error
    ⟨OpResult.ok, OpResult.ok, WaitResult.returned, OpResult.ok, false⟩
    [("a", 5)] "a" 5 (by decide) (by decide)

/-- Claim C6: launching with a nonexistent batch-file path returns no
pid and performs no snapshot, no spawn and no tracker record — the map
is returned identical and the side-effect trace is empty. -/
theorem launch_missing_target_no_effect (env : LaunchEnv) (m : ProcessMap)
    (login : Login) (h : env.pathExists = false) :
    launch_account_sync env m login = (none, m, ⟨0, false⟩) := by
  unfold launch_account_sync
  simp [h]

/-- Witness for claim C6 at a concrete missing path. -/
theorem launch_missing_target_no_effect_witness :
    launch_account_sync ⟨false, [1], true, [2]⟩ [("b", 3)] "a" =
      (none, [("b", 3)], ⟨0, false⟩) :=
  launch_missing_target_no_effect ⟨false, [1], true, [2]⟩ [("b", 3)] "a"
    rfl

/-- Claim C7: terminating an untracked key returns false and has no side
effect: the map is unchanged and no process operation is performed. -/
theorem terminate_untracked_no_effect (env : TermEnv) (m : ProcessMap)
    (login : Login) (h : lookupMap m login = none) :
    terminate_account env m login = (false, m, []) := by
  unfold terminate_account
  rw [h]

/-- Witness for claim C7 at a concrete untracked key. -/
theorem terminate_untracked_no_effect_witness :
    terminate_account
      ⟨OpResult.ok, OpResult.ok, WaitResult.returned, OpResult.ok, false⟩
      [("b", 3)] "a" = (false, [("b", 3)], []) :=
  terminate_untracked_no_effect
    ⟨OpResult.ok, OpResult.ok, WaitResult.returned, OpResult.ok, false⟩
    [("b", 3)] "a" (by decide)

/-- Counterexample for claim C8: a key tracked to the falsy pid 0 whose
pid resolves to no OS process — `is_account_running` returns false but
leaves the entry in the map, because the guard `if not pid` fires before
the `NoSuchProcess` cleanup branch is reached. -/
theorem is_account_running_pid_zero_not_removed :
    lookupMap [("a", 0)] "a" = some 0 ∧
    (⟨fun _ => false, fun _ => false⟩ : OsView).procExists 0 = false ∧
    is_account_running ⟨fun _ => false, fun _ => false⟩ [("a", 0)] "a" =
      (false, [("a", 0)]) := by
  decide

/-- Claim C8 as amended: for every tracked key with nonzero pid that no
longer resolves to an existing OS process, `is_account_running` returns
false and additionally removes that key's entry from the map as a side
effect; a key tracked to the falsy pid 0 also returns false but is left
in the map by the truthiness guard. -/
theorem is_account_running_dead_pid_removes (os : OsView) (m : ProcessMap)
    (login : Login) (pid : Pid) (h : lookupMap m login = some pid)
    (hp : pid ≠ 0) (hx : os.procExists pid = false) :
    is_account_running os m login = (false, delMap m login) := by
  unfold is_account_running
  rw [h]
  simp [hp, hx]

/-- Witness for the amended claim C8 at a concrete dead pid. -/
theorem is_account_running_dead_pid_removes_witness :
    is_account_running ⟨fun _ => false, fun _ => false⟩ [("a", 5)] "a" =
      (false, delMap [("a", 5)] "a") :=
  is_account_running_dead_pid_removes ⟨fun _ => false, fun _ => false⟩
    [("a", 5)] "a" 5 (by decide) (by decide) rfl

/-- Claim C9: when terminating a tracked key fails with an error other
than the process being already gone (for example access denied), the
call returns false and the tracker mapping is left unchanged — removal
happens only on the success paths. -/
theorem terminate_failure_preserves_map (env : TermEnv) (m : ProcessMap)
    (login : Login) (pid : Pid) (h : lookupMap m login = some pid)
    (herr : ¬termSucceeds env) :
    (terminate_account env m login).1 = false ∧
    (terminate_account env m login).2.1 = m := by
  obtain ⟨pc, tr, wr, kr, al⟩ := env
  unfold terminate_account
  rw [h]
  by_cases hp : pid = 0
  · simp [hp]
  · cases pc <;> cases tr <;> cases wr <;> cases kr <;>
      simp [termSucceeds] at herr ⊢ <;> simp [hp]

/-- Witness for claim C9: `terminate()` raises an unexpected error. -/
theorem terminate_failure_preserves_map_witness :
    (terminate_account
      ⟨OpResult.ok, OpResult.err, WaitResult.returned, OpResult.ok, true⟩
      [("a", 5)] "a").1 = false ∧
    (terminate_account
      ⟨OpResult.ok, OpResult.err, WaitResult.returned, OpResult.ok, true⟩
      [("a", 5)] "a").2.1 = [("a", 5)] :=
  terminate_failure_preserves_map
    ⟨OpResult.ok, OpResult.err, WaitResult.returned, OpResult.ok, true⟩
    [("a", 5)] "a" 5 (by decide) (by decide)

/-- Claim C10: when a launch returns pid `p` for a login, `p` was in the
after-spawn snapshot and not in the before-spawn snapshot, the map is the
old map with the login set to `p`, and the login now looks up to `p`;
when the launch returns no pid, the map is returned unchanged. -/
theorem launch_records_fresh_pid (env : LaunchEnv) (m : ProcessMap)
    (login : Login) :
    (∀ pid, (launch_account_sync env m login).1 = some pid →
      pid ∈ env.afterPids ∧ pid ∉ env.beforePids ∧
      (launch_account_sync env m login).2.1 = setMap m login pid ∧
      lookupMap (launch_account_sync env m login).2.1 login = some pid) ∧
    ((launch_account_sync env m login).1 = none →
      (launch_account_sync env m login).2.1 = m) := by
  rcases launch_result_cases env m login with
    ⟨pid0, rest, hfl, heq⟩ | ⟨h1, h2⟩
  · have hmem : pid0 ∈ env.afterPids.filter (fun p => !memB p env.beforePids) := by
      rw [hfl]
      exact List.mem_cons_self pid0 rest
    have hafter : pid0 ∈ env.afterPids := List.mem_of_mem_filter hmem
    have hnb : memB pid0 env.beforePids = false := by
      have hcond := List.of_mem_filter hmem
      simpa using hcond
    have hbefore : pid0 ∉ env.beforePids := fun hc => by
      simp [(memB_iff _ _).mpr hc] at hnb
    constructor
    · intro pid hpid
      rw [heq] at hpid
      simp only [Option.some.injEq] at hpid
      subst hpid
      rw [heq]
      exact ⟨hafter, hbefore, rfl, lookupMap_setMap_self m login pid0⟩
    · intro hnone
      rw [heq] at hnone
      simp at hnone
  · constructor
    · intro pid hpid
      rw [h1] at hpid
      simp at hpid
    · intro _
      exact h2

/-- Witness for claim C10: a successful launch discovering fresh pid 5
and a failed launch leaving the map unchanged. -/
theorem launch_records_fresh_pid_witness :
    ((5 : Pid) ∈ ([3, 5] : List Pid) ∧ (5 : Pid) ∉ ([3] : List Pid) ∧
      (launch_account_sync ⟨true, [3], true, [3, 5]⟩ [] "a").2.1 =
        setMap [] "a" 5 ∧
      lookupMap (launch_account_sync ⟨true, [3], true, [3, 5]⟩ [] "a").2.1
        "a" = some 5) ∧
    (launch_account_sync ⟨false, [], true, []⟩ [("b", 3)] "a").2.1 =
      [("b", 3)] := by
  refine ⟨(launch_records_fresh_pid ⟨true, [3], true, [3, 5]⟩ [] "a").1 5
    (by decide), ?_⟩
  exact (launch_records_fresh_pid ⟨false, [], true, []⟩ [("b", 3)] "a").2
    (by decide)

end PwLauncher
